import Mathlib

/-!
Shallow embedding of the four analysis scripts of the repository
(download_kegg_pathways_db.py, kegg_paths_plot.py, go_plots_300724.py and
the virus-copies plotting script), together with theorems settling the
specification claims about them.

The HTML extractor of download_kegg_pathways_db.py is modelled over a rose
tree of markup nodes.  The BeautifulSoup operations used by the script are
embedded as follows: find_all is a document-order traversal returning each
matching element together with its list of following siblings, and
find_next_sibling with a tag or class filter is List.find? over those
following siblings.  Python string operations (strip, split with maxsplit 1,
zfill, slicing, regex replacement of a literal pattern) are embedded as
executable functions on List Char / String.
-/

/-- Whitespace characters removed by the Python str.strip method (ASCII part). -/
def pyIsSpace (c : Char) : Bool :=
  c = ' ' || c = '\t' || c = '\n' || c = '\r' || c = '\x0b' || c = '\x0c'

/-- Python str.strip with no argument: remove leading and trailing whitespace. -/
def pyStrip (s : String) : String :=
  ⟨((s.toList.dropWhile pyIsSpace).reverse.dropWhile pyIsSpace).reverse⟩

/-- Split a character list at the first space, returning the part before it and,
when a space occurs, the part after it. -/
def splitOnceAux : List Char → List Char × Option (List Char)
  | [] => ([], none)
  | c :: rest =>
    if c = ' ' then ([], some rest)
    else
      let r := splitOnceAux rest
      (c :: r.1, r.2)

/-- Python s.split(chr 32, 1) indexed by -1: the part after the first space when
the string contains one, otherwise the whole string. -/
def lastOfSplitOnce (s : String) : String :=
  match (splitOnceAux s.toList).2 with
  | some after => ⟨after⟩
  | none => s

/-- The name computation used by the script for both category and sub-category
labels: text.strip, split at the first space, take the last part, strip again. -/
def nameFrom (raw : String) : String := pyStrip (lastOfSplitOnce (pyStrip raw))

/-- A node of the parsed HTML document: an element with tag name, class list and
children, or a text node. -/
inductive Node where
  | elem (tag : String) (classes : List String) (children : List Node)
  | text (s : String)

/-- The children of a node (empty for text nodes). -/
def Node.childList : Node → List Node
  | .elem _ _ cs => cs
  | .text _ => []

mutual

/-- Concatenated text of a node, as the BeautifulSoup text property. -/
def textN : Node → String
  | .text s => s
  | .elem _ _ cs => textL cs

/-- Concatenated text of a list of nodes. -/
def textL : List Node → String
  | [] => ""
  | n :: rest => textN n ++ textL rest

end

mutual

/-- All matching elements strictly below a node in document order, each paired
with its list of following siblings.  This embeds the BeautifulSoup find_all
call made on that node. -/
def faN (p : Node → Bool) : Node → List (Node × List Node)
  | .text _ => []
  | .elem _ _ cs => faL p cs

/-- All matching elements within a forest in document order, each paired with
its list of following siblings. -/
def faL (p : Node → Bool) : List Node → List (Node × List Node)
  | [] => []
  | n :: rest => (if p n then [(n, rest)] else []) ++ faN p n ++ faL p rest

end

/-- The filter of a find_all or find_next_sibling call given a tag name. -/
def isTag (t : String) (n : Node) : Bool :=
  match n with
  | .elem tg _ _ => tg == t
  | .text _ => false

/-- The filter of the calls looking for a div element with class list. -/
def isDivList (n : Node) : Bool :=
  match n with
  | .elem tg cls _ => tg == "div" && cls.contains "list"
  | .text _ => false

/-- One row appended to the data list by the extractor. -/
structure PathwayRecord where
  category : String
  subCategory : String
  pathwayID : String
  pathwayName : String
deriving DecidableEq

/-- One iteration of the dt loop inside extract_pathways: strip the term text,
keep it only when nonempty and of length at least 5, look for the next dd
sibling, take the first a element inside it, and emit the single record with
the formatted pathway id. -/
def extractFromDt (categoryName subcategoryName : String) (dt : Node)
    (sibs : List Node) : List PathwayRecord :=
  if pyStrip (textN dt) ≠ "" ∧ 5 ≤ (pyStrip (textN dt)).length then
    match List.find? (isTag "dd") sibs with
    | some ddTag =>
      match (faN (isTag "a") ddTag).head? with
      | some q =>
        [{ category := categoryName, subCategory := subcategoryName,
           pathwayID := ">" ++ pyStrip (textN dt) ++ " <",
           pathwayName := pyStrip (textN q.1) }]
      | none => []
    | none => []
  else []

/-- The extract_pathways function of the script: for each dl element, for each
dt inside it, run the per-term extraction. -/
def extract_pathways (dlElements : List Node) (categoryName subcategoryName : String) :
    List PathwayRecord :=
  dlElements.flatMap fun dl =>
    (faN (isTag "dt") dl).flatMap fun q =>
      extractFromDt categoryName subcategoryName q.1 q.2

/-- The body shared by both loops over b labels: compute the sub-category name,
find the next div sibling with class list, and extract from all dl elements
inside it. -/
def recordsForB (categoryName : String) (bTag : Node) (sibs : List Node) :
    List PathwayRecord :=
  match List.find? isDivList sibs with
  | some subcategoryDl =>
      extract_pathways ((faN (isTag "dl") subcategoryDl).map Prod.fst)
        categoryName (nameFrom (textN bTag))
  | none => []

/-- The body of the categories loop for one h4 heading: compute the category
name, find the next div sibling with class list, and process every b label
inside it. -/
def recordsForCat (category : Node) (sibs : List Node) : List PathwayRecord :=
  match List.find? isDivList sibs with
  | some subcategories =>
      (faN (isTag "b") subcategories).flatMap fun q =>
        recordsForB (nameFrom (textN category)) q.1 q.2
  | none => []

/-- The category-scoped pass: soup.find_all on h4 followed by the categories loop. -/
def categoriesPass (doc : List Node) : List PathwayRecord :=
  (faL (isTag "h4") doc).flatMap fun q => recordsForCat q.1 q.2

/-- The whole-document second pass: soup.find_all on b, each label processed
with the category sentinel. -/
def additionalPass (doc : List Node) : List PathwayRecord :=
  (faL (isTag "b") doc).flatMap fun q => recordsForB "N/A" q.1 q.2

/-- A full run of the extractor: the data list after both passes, in order. -/
def fullRun (doc : List Node) : List PathwayRecord :=
  categoriesPass doc ++ additionalPass doc

/-- A definition list with a valid six-character term whose definition holds a
link, followed by a three-character term. -/
def minDl : Node :=
  .elem "dl" []
    [.elem "dt" [] [.text "ABC123"],
     .elem "dd" [] [.elem "a" [] [.text "Example Pathway"]],
     .elem "dt" [] [.text "ABC"],
     .elem "dd" [] [.elem "a" [] [.text "Other Pathway"]]]

/-- The list container holding the definition list. -/
def minContainer : Node := .elem "div" ["list"] [minDl]

/-- The bold sub-category label of the minimal document. -/
def minB : Node := .elem "b" [] [.text "1.1 Sub"]

/-- The minimal document of the end-to-end scenario: one category heading, one
bold sub-category label followed by a list container, and a definition list
with a six-character term with a linked definition and a three-character term. -/
def minDoc : List Node :=
  [.elem "h4" [] [.text "1. Metabolism"],
   .elem "div" ["list"] [minB, minContainer]]

/-- The record the category-scoped pass emits on the minimal document. -/
def minRecCat : PathwayRecord :=
  { category := "Metabolism", subCategory := "Sub",
    pathwayID := ">ABC123 <", pathwayName := "Example Pathway" }

/-- The record the whole-document bold-label pass emits on the minimal document. -/
def minRecNA : PathwayRecord :=
  { category := "N/A", subCategory := "Sub",
    pathwayID := ">ABC123 <", pathwayName := "Example Pathway" }

/-- A document in which the list containers are later, non-adjacent siblings of
the category heading and of the bold label. -/
def gapDoc : List Node :=
  [.elem "h4" [] [.text "1. Metabolism"],
   .text "noise",
   .elem "p" [] [.text "para"],
   .elem "div" ["list"]
     [minB, .elem "p" [] [.text "gap"], minContainer]]

/-- A document whose category heading text reduces to the sentinel string. -/
def naDoc : List Node :=
  [.elem "h4" [] [.text "0. N/A"],
   .elem "div" ["list"] [minB, minContainer]]

/-- A document holding one bold label with no following list container. -/
def loneBoldDoc : List Node := [.elem "b" [] [.text "1.1 Sub"]]

/-!
Model of kegg_paths_plot.py: the pathway id cleaning (regex replacement of the
literal pattern ko by the empty string, then zfill to width 5) and the guarded
load of the manually curated csv file.
-/

/-- Left-to-right replacement of every non-overlapping occurrence of the two
character pattern k o by nothing, as the regex replace call does on each
pathway id. -/
def removeKo : List Char → List Char
  | [] => []
  | [c] => [c]
  | c :: d :: rest =>
    if c = 'k' ∧ d = 'o' then removeKo rest
    else c :: removeKo (d :: rest)

/-- Whether the two character pattern k o occurs somewhere in the list. -/
def hasKo : List Char → Bool
  | [] => false
  | [_] => false
  | c :: d :: rest => (c = 'k' && d = 'o') || hasKo (d :: rest)

/-- Python str.zfill: left-pad with the zero digit to the requested width,
keeping a leading sign character in front. -/
def pyZfill (w : Nat) (s : String) : String :=
  if w ≤ s.toList.length then s
  else
    match s.toList with
    | c :: rest =>
      if c = '+' ∨ c = '-' then
        ⟨c :: (List.replicate (w - s.toList.length) '0' ++ rest)⟩
      else ⟨List.replicate (w - s.toList.length) '0' ++ s.toList⟩
    | [] => ⟨List.replicate w '0'⟩

/-- The pathway id cleaning step of kegg_paths_plot.py: remove every occurrence
of the pattern ko, then zero-pad to width 5. -/
def cleanPathwayID (s : String) : String := pyZfill 5 ⟨removeKo s.toList⟩

/-- Name of the manually curated csv the plotting step needs. -/
def selectedFilename : String := "me_1_kegg_selected.csv"

/-- The message of the failure raised when the curated csv is missing. -/
def selectedErrMsg : String :=
  "Error: Prepare the file \x27me_1_kegg_selected.csv\x27 in excel first."

/-- The guarded load of the curated csv: reading succeeds with the file contents
when the file exists, and otherwise the descriptive failure is raised.  The
file system is modelled as a partial map from names to contents. -/
def readSelected (fs : String → Option String) : Except String String :=
  match fs selectedFilename with
  | some contents => .ok contents
  | none => .error selectedErrMsg

/-!
Model of go_plots_300724.py: the rows of the input table, the significance
filter, the derived negative log column, the term truncation, the per-group
top selection, and the rows from which bars are drawn.
-/

/-- One row of the GO enrichment input table. -/
structure GoRow where
  term : String
  count : Nat
  pvalue : ℚ
  group : String
deriving DecidableEq

/-- Python slicing x up to 35 when longer than 35, as applied to each term. -/
def pyTruncate (n : Nat) (s : String) : String :=
  if n < s.toList.length then ⟨s.toList.take n⟩ else s

/-- The significance filter of the script: keep rows with p-value at most 0.05. -/
def sigFilter (df : List GoRow) : List GoRow :=
  df.filter fun r => decide (r.pvalue ≤ 1/20)

/-- The derived display column: the filtered rows each paired with the negative
log of their p-value, the log modelled as an abstract function. -/
def withNegLog (neglog : ℚ → ℚ) (df : List GoRow) : List (GoRow × ℚ) :=
  (sigFilter df).map fun r => (r, neglog r.pvalue)

/-- The prepared frame the plotting loop works on: filtered rows with terms
truncated to 35 characters. -/
def preparedDf (df : List GoRow) : List GoRow :=
  (sigFilter df).map fun r => { r with term := pyTruncate 35 r.term }

/-- Stable descending insertion by gene count. -/
def insertByCountDesc (r : GoRow) : List GoRow → List GoRow
  | [] => [r]
  | x :: xs => if x.count < r.count then r :: x :: xs else x :: insertByCountDesc r xs

/-- Stable descending sort by gene count. -/
def sortByCountDesc : List GoRow → List GoRow
  | [] => []
  | x :: xs => insertByCountDesc x (sortByCountDesc xs)

/-- The pandas nlargest call on the count column: sort descending and take the
first n rows. -/
def nlargestByCount (n : Nat) (rows : List GoRow) : List GoRow :=
  (sortByCountDesc rows).take n

/-- The rows drawn as bars for one group: the prepared frame restricted to the
group, top 100 by gene count. -/
def plottedBars (df : List GoRow) (g : String) : List GoRow :=
  nlargestByCount 100 ((preparedDf df).filter fun r => r.group == g)

/-!
Model of the virus-copies plotting script: the hard-coded copy-number columns
and the three per-bar error arrays.  Each error array is numpy where applied to
the not-na mask of a data column, a fresh unseeded uniform random draw scaled
by 1000 or 1000000, and nan otherwise; the random stream of one draw is
modelled as a function from positions to rationals, and nan entries as none.
-/

/-- The SPPV_1 copy numbers of data_sppv. -/
def sppv1Data : List (Option ℚ) :=
  [some 54573.8, some 81310.0, some 31022.3, some 45408.6, some 45509.3,
   some 29743.8, some 8068.2, some 14006.1, some 31576.9, some 27101.4,
   some 24803.4, some 28266.4]

/-- The SPPV_3 copy numbers of data_sppv. -/
def sppv3Data : List (Option ℚ) :=
  [some 54092.4, some 44611.0, some 54212.3, some 110382.4, some 88450.4,
   some 114111.7, some 6479.5, some 13944.1, some 27101.4, some 69323.4,
   some 13882.5, some 37366.5]

/-- The SPCSV_3 copy numbers of data_spcsv. -/
def spcsv3Data : List (Option ℚ) :=
  [some 693716.1, some 20373636.9, some 7179320.7, some 1827850.0,
   some 1806429.4, some 9431.0]

/-- Elementwise numpy where over a column starting at position i: a scaled
random draw where the entry is present, nan where it is not. -/
def mkErrorFrom (scale : ℚ) (rand : ℕ → ℚ) : ℕ → List (Option ℚ) → List (Option ℚ)
  | _, [] => []
  | i, v :: rest =>
    (match v with
     | some _ => some (rand i * scale)
     | none => none) :: mkErrorFrom scale rand (i + 1) rest

/-- One error array: numpy where over the whole column. -/
def mkError (scale : ℚ) (rand : ℕ → ℚ) (data : List (Option ℚ)) : List (Option ℚ) :=
  mkErrorFrom scale rand 0 data

/-- The error array drawn for the SPPV_1 bars, scaled by 1000. -/
def error_SPPV_1 (rand : ℕ → ℚ) : List (Option ℚ) := mkError 1000 rand sppv1Data

/-- The error array drawn for the SPPV_3 bars, scaled by 1000. -/
def error_SPPV_3 (rand : ℕ → ℚ) : List (Option ℚ) := mkError 1000 rand sppv3Data

/-- The error array drawn for the SPCSV_3 bars, scaled by 1000000. -/
def error_SPCSV_3 (rand : ℕ → ℚ) : List (Option ℚ) := mkError 1000000 rand spcsv3Data

def dtDemo : Node := .elem "dt" [] [.text "ABC123"]

def ddDemo : Node := .elem "dd" [] [.elem "a" [] [.text "Example Pathway"]]

def goRowA : GoRow := { term := "alpha", count := 5, pvalue := 1/100, group := "BP" }

def goRowB : GoRow := { term := "beta", count := 3, pvalue := 1/2, group := "BP" }

def goDemo : List GoRow := [goRowA, goRowB]

/-!
Supporting lemmas shared by the claim theorems.
-/

theorem mem_extractFromDt {c s : String} {dt : Node} {sibs : List Node} {r : PathwayRecord}
    (h : r ∈ extractFromDt c s dt sibs) :
    r.category = c ∧ r.subCategory = s ∧
    r.pathwayID = ">" ++ pyStrip (textN dt) ++ " <" ∧
    pyStrip (textN dt) ≠ "" ∧ 5 ≤ (pyStrip (textN dt)).length := by
  unfold extractFromDt at h
  split at h
  next hc =>
    split at h
    next ddTag hdd =>
      split at h
      next q hq =>
        simp only [List.mem_singleton] at h
        subst h
        exact ⟨rfl, rfl, rfl, hc.1, hc.2⟩
      next => simp at h
    next => simp at h
  next => simp at h

theorem mem_extract_pathways {dls : List Node} {c s : String} {r : PathwayRecord}
    (h : r ∈ extract_pathways dls c s) :
    ∃ dt dsibs, r ∈ extractFromDt c s dt dsibs := by
  unfold extract_pathways at h
  rcases List.mem_flatMap.mp h with ⟨dl, _, h2⟩
  rcases List.mem_flatMap.mp h2 with ⟨q, _, h3⟩
  exact ⟨q.1, q.2, h3⟩

theorem mem_recordsForB {c : String} {b : Node} {sibs : List Node} {r : PathwayRecord}
    (h : r ∈ recordsForB c b sibs) :
    ∃ dt dsibs, r ∈ extractFromDt c (nameFrom (textN b)) dt dsibs := by
  unfold recordsForB at h
  split at h
  · exact mem_extract_pathways h
  · simp at h

theorem recordsForB_category {c : String} {b : Node} {sibs : List Node} {r : PathwayRecord}
    (h : r ∈ recordsForB c b sibs) : r.category = c := by
  obtain ⟨dt, ds, h⟩ := mem_recordsForB h
  exact (mem_extractFromDt h).1

theorem mem_recordsForCat {cat : Node} {sibs : List Node} {r : PathwayRecord}
    (h : r ∈ recordsForCat cat sibs) :
    ∃ b bsibs, r ∈ recordsForB (nameFrom (textN cat)) b bsibs := by
  unfold recordsForCat at h
  split at h
  · rcases List.mem_flatMap.mp h with ⟨q, _, h2⟩
    exact ⟨q.1, q.2, h2⟩
  · simp at h

theorem mem_fullRun {doc : List Node} {r : PathwayRecord} (h : r ∈ fullRun doc) :
    ∃ c s dt dsibs, r ∈ extractFromDt c s dt dsibs := by
  unfold fullRun at h
  rcases List.mem_append.mp h with h | h
  · rcases List.mem_flatMap.mp h with ⟨q, _, h2⟩
    obtain ⟨b, bs, h3⟩ := mem_recordsForCat h2
    obtain ⟨dt, ds, h4⟩ := mem_recordsForB h3
    exact ⟨_, _, dt, ds, h4⟩
  · rcases List.mem_flatMap.mp h with ⟨q, _, h2⟩
    obtain ⟨dt, ds, h4⟩ := mem_recordsForB h2
    exact ⟨_, _, dt, ds, h4⟩

theorem extractFromDt_eq_nil_iff (c s : String) (dt : Node) (sibs : List Node) :
    extractFromDt c s dt sibs = [] ↔
      (pyStrip (textN dt) = "" ∨ (pyStrip (textN dt)).length < 5 ∨
       List.find? (isTag "dd") sibs = none ∨
       ∃ ddTag, List.find? (isTag "dd") sibs = some ddTag ∧
         (faN (isTag "a") ddTag).head? = none) := by
  unfold extractFromDt
  split
  next hc =>
    split
    next ddTag hdd =>
      split
      next q hq =>
        simp only [List.cons_ne_nil, false_iff]
        push_neg
        refine ⟨hc.1, hc.2, ?_, ?_⟩
        · simp [hdd]
        · intro d hd
          rw [hdd] at hd
          cases hd
          simp [hq]
      next hq =>
        simp only [true_iff]
        exact Or.inr (Or.inr (Or.inr ⟨ddTag, hdd, hq⟩))
    next hdd =>
      simp only [true_iff]
      exact Or.inr (Or.inr (Or.inl hdd))
  next hc =>
    simp only [true_iff]
    rw [not_and_or] at hc
    rcases hc with hc | hc
    · exact Or.inl (not_ne_iff.mp hc)
    · exact Or.inr (Or.inl (not_le.mp hc))

theorem extractFromDt_length_le (c s : String) (dt : Node) (sibs : List Node) :
    (extractFromDt c s dt sibs).length ≤ 1 := by
  unfold extractFromDt
  split
  · split
    · split <;> simp
    · simp
  · simp

theorem find?_skip {p : Node → Bool} {junk : Node} (rest : List Node)
    (h : p junk = false) : List.find? p (junk :: rest) = List.find? p rest := by
  simp [List.find?_cons, h]

theorem recordsForCat_skip (cat junk : Node) (rest : List Node)
    (h : isDivList junk = false) :
    recordsForCat cat (junk :: rest) = recordsForCat cat rest := by
  unfold recordsForCat
  rw [find?_skip rest h]

theorem recordsForB_skip (c : String) (b junk : Node) (rest : List Node)
    (h : isDivList junk = false) :
    recordsForB c b (junk :: rest) = recordsForB c b rest := by
  unfold recordsForB
  rw [find?_skip rest h]

theorem extractFromDt_skip (c s : String) (dt junk : Node) (rest : List Node)
    (h : isTag "dd" junk = false) :
    extractFromDt c s dt (junk :: rest) = extractFromDt c s dt rest := by
  unfold extractFromDt
  rw [find?_skip rest h]

theorem extract_pathways_append (dls dls2 : List Node) (c s : String) :
    extract_pathways (dls ++ dls2) c s =
      extract_pathways dls c s ++ extract_pathways dls2 c s := by
  unfold extract_pathways
  rw [List.flatMap_append]

theorem recordsForB_subset_additionalPass {doc : List Node} {b : Node} {sibs : List Node}
    (hmem : (b, sibs) ∈ faL (isTag "b") doc) {r : PathwayRecord}
    (hr : r ∈ recordsForB "N/A" b sibs) : r ∈ additionalPass doc := by
  unfold additionalPass
  exact List.mem_flatMap.mpr ⟨(b, sibs), hmem, hr⟩

theorem mem_insertByCountDesc {a r : GoRow} {l : List GoRow} :
    a ∈ insertByCountDesc r l ↔ a = r ∨ a ∈ l := by
  induction l with
  | nil => simp [insertByCountDesc]
  | cons x xs ih =>
    unfold insertByCountDesc
    split
    · simp
    · simp [ih]
      tauto

theorem mem_sortByCountDesc {a : GoRow} {l : List GoRow} :
    a ∈ sortByCountDesc l ↔ a ∈ l := by
  induction l with
  | nil => simp [sortByCountDesc]
  | cons x xs ih =>
    unfold sortByCountDesc
    rw [mem_insertByCountDesc, ih]
    simp

theorem mem_sigFilter {df : List GoRow} {r : GoRow} :
    r ∈ sigFilter df ↔ r ∈ df ∧ r.pvalue ≤ 1/20 := by
  unfold sigFilter
  simp [List.mem_filter]

theorem mem_mkErrorFrom {scale : ℚ} {rand : ℕ → ℚ} {q : ℚ} :
    ∀ (i : ℕ) (d : List (Option ℚ)), some q ∈ mkErrorFrom scale rand i d →
      ∃ j, q = rand j * scale := by
  intro i d
  induction d generalizing i with
  | nil => simp [mkErrorFrom]
  | cons v rest ih =>
    intro h
    unfold mkErrorFrom at h
    rcases List.mem_cons.mp h with h | h
    · cases v with
      | some _ => exact ⟨i, Option.some.inj h⟩
      | none => simp at h
    · exact ih _ h

theorem mkErrorFrom_congr {scale : ℚ} {rand : ℕ → ℚ} :
    ∀ (i : ℕ) (d d' : List (Option ℚ)),
      d.map Option.isSome = d'.map Option.isSome →
      mkErrorFrom scale rand i d = mkErrorFrom scale rand i d' := by
  intro i d
  induction d generalizing i with
  | nil =>
    intro d' h
    cases d' with
    | nil => rfl
    | cons _ _ => simp at h
  | cons v rest ih =>
    intro d' h
    cases d' with
    | nil => simp at h
    | cons w rest' =>
      simp only [List.map_cons, List.cons.injEq] at h
      unfold mkErrorFrom
      rw [ih (i + 1) rest' h.2]
      cases v <;> cases w <;> simp_all

theorem removeKo_cons_cons (c d : Char) (rest : List Char) :
    removeKo (c :: d :: rest) =
      if c = 'k' ∧ d = 'o' then removeKo rest else c :: removeKo (d :: rest) := rfl

theorem removeKo_append (b : List Char) :
    ∀ a : List Char, hasKo a = false →
      removeKo (a ++ 'k' :: 'o' :: b) = a ++ removeKo b := by
  intro a
  induction a with
  | nil =>
    intro _
    show removeKo ('k' :: 'o' :: b) = removeKo b
    rw [removeKo_cons_cons, if_pos ⟨rfl, rfl⟩]
  | cons c a' ih =>
    intro h
    cases a' with
    | nil =>
      show removeKo (c :: 'k' :: 'o' :: b) = c :: removeKo b
      rw [removeKo_cons_cons, if_neg (by simp), removeKo_cons_cons, if_pos ⟨rfl, rfl⟩]
    | cons d a'' =>
      unfold hasKo at h
      rw [Bool.or_eq_false_iff] at h
      obtain ⟨h1, h2⟩ := h
      have hcond : ¬(c = 'k' ∧ d = 'o') := by
        intro hc
        rw [hc.1, hc.2] at h1
        simp at h1
      show removeKo (c :: d :: (a'' ++ 'k' :: 'o' :: b)) = c :: d :: (a'' ++ removeKo b)
      rw [removeKo_cons_cons, if_neg hcond,
        show d :: (a'' ++ 'k' :: 'o' :: b) = (d :: a'') ++ 'k' :: 'o' :: b from rfl,
        ih h2]
      rfl

/-- Claim C1, counterexample: on the minimal end-to-end document the full run
exports two rows, not exactly one, because the bold label is captured both by
the category-scoped pass and by the whole-document bold-label pass. -/
theorem claim_C1_counterexample : (fullRun minDoc).length ≠ 1 := by decide

/-- Claim C1, amended: a full run of the extractor on the minimal document
exports exactly two rows, both with Pathway ID field >ABC123 <, the first from
the category-scoped pass with the heading-derived category and the second from
the bold-label pass with the category sentinel. -/
theorem claim_C1_full_run : fullRun minDoc = [minRecCat, minRecNA] := by decide

/-- Claim C2, amended: for every bold label anywhere in the document, every
record its list container yields in the second pass is present in the output of
that pass and carries the category sentinel, in addition to any record of the
category-scoped pass; hence the total record count of a full run is at least
the count of the category-scoped pass alone.  A bold label with no following
list container yields no record at all. -/
theorem claim_C2_bold_labels : ∀ (doc : List Node) (b : Node) (sibs : List Node),
    (b, sibs) ∈ faL (isTag "b") doc →
    (∀ r ∈ recordsForB "N/A" b sibs, r ∈ additionalPass doc ∧ r.category = "N/A") ∧
    (categoriesPass doc).length ≤ (fullRun doc).length := by
  intro doc b sibs hmem
  refine ⟨fun r hr => ⟨recordsForB_subset_additionalPass hmem hr, recordsForB_category hr⟩, ?_⟩
  unfold fullRun
  simp

/-- Claim C2, witness: instantiation on the minimal document and its bold label. -/
theorem claim_C2_witness :
    (minRecNA ∈ additionalPass minDoc ∧ minRecNA.category = "N/A") ∧
    (categoriesPass minDoc).length ≤ (fullRun minDoc).length := by
  have h := claim_C2_bold_labels minDoc minB [minContainer] (List.mem_singleton.mpr rfl)
  exact ⟨h.1 minRecNA (by decide), h.2⟩

/-- Claim C2, counterexample: a document holding one bold label with no
following list container has a bold label yet the second pass emits no record
for it, refuting the claim that every bold label yields at least one record
with the category sentinel. -/
theorem claim_C2_counterexample :
    (faL (isTag "b") loneBoldDoc).length = 1 ∧ additionalPass loneBoldDoc = [] ∧
    fullRun loneBoldDoc = [] := by decide

/-- Claim C3: for every definition term and sibling list, at most one record
is emitted; no record is emitted exactly when the stripped term text is empty
or shorter than 5 characters, or no dd sibling follows, or the found definition
contains no link; otherwise exactly one record is appended.  The function is
total, so extraction always continues with the next pair. -/
theorem claim_C3_pairs : ∀ (c s : String) (dt : Node) (sibs : List Node),
    (extractFromDt c s dt sibs).length ≤ 1 ∧
    (extractFromDt c s dt sibs = [] ↔
      (pyStrip (textN dt) = "" ∨ (pyStrip (textN dt)).length < 5 ∨
       List.find? (isTag "dd") sibs = none ∨
       ∃ ddTag, List.find? (isTag "dd") sibs = some ddTag ∧
         (faN (isTag "a") ddTag).head? = none)) ∧
    (extractFromDt c s dt sibs ≠ [] → (extractFromDt c s dt sibs).length = 1) :=
  fun c s dt sibs =>
    ⟨extractFromDt_length_le c s dt sibs, extractFromDt_eq_nil_iff c s dt sibs,
     fun hne => le_antisymm (extractFromDt_length_le c s dt sibs)
       (List.length_pos.mpr hne)⟩

/-- Claim C3, witness: a valid term with a linked definition yields exactly
one record. -/
theorem claim_C3_witness :
    (extractFromDt "Metabolism" "Sub" dtDemo [ddDemo]).length = 1 :=
  (claim_C3_pairs "Metabolism" "Sub" dtDemo [ddDemo]).2.2 (by decide)

/-- Claim C4, counterexample: a category heading whose text reduces to the
sentinel string produces a category-scoped record whose Category field is the
sentinel, refuting the claim that the Category field is the sentinel exactly
when the record was emitted by the whole-document bold-label pass. -/
theorem claim_C4_counterexample :
    (categoriesPass naDoc).map PathwayRecord.category = ["N/A"] := by decide

/-- Claim C4, amended: every record of a full run has a Pathway ID field
equal to the stripped term text of some term node, nonempty and of length at
least 5, wrapped between the two marker characters; and every record emitted by
the whole-document bold-label pass carries the category sentinel. -/
theorem claim_C4_invariant : ∀ (doc : List Node),
    (∀ r ∈ fullRun doc, ∃ dt : Node,
        r.pathwayID = ">" ++ pyStrip (textN dt) ++ " <" ∧
        pyStrip (textN dt) ≠ "" ∧ 5 ≤ (pyStrip (textN dt)).length) ∧
    (∀ r ∈ additionalPass doc, r.category = "N/A") := by
  intro doc
  constructor
  · intro r hr
    obtain ⟨c, s, dt, ds, h⟩ := mem_fullRun hr
    obtain ⟨_, _, hid, hne, hlen⟩ := mem_extractFromDt h
    exact ⟨dt, hid, hne, hlen⟩
  · intro r hr
    unfold additionalPass at hr
    rcases List.mem_flatMap.mp hr with ⟨q, _, h2⟩
    exact recordsForB_category h2

/-- Claim C4, witness: instantiation on the minimal document and the record
of its bold-label pass. -/
theorem claim_C4_witness :
    (∃ dt : Node, minRecNA.pathwayID = ">" ++ pyStrip (textN dt) ++ " <" ∧
      pyStrip (textN dt) ≠ "" ∧ 5 ≤ (pyStrip (textN dt)).length) ∧
    minRecNA.category = "N/A" :=
  ⟨(claim_C4_invariant minDoc).1 minRecNA (by decide),
   (claim_C4_invariant minDoc).2 minRecNA (by decide)⟩

/-- Claim C5, counterexample: in a document where the list containers are
later, non-adjacent siblings of the category heading and of the bold label, the
category-scoped pass still emits the record, refuting the claim that only the
single immediately-following sibling is considered. -/
theorem claim_C5_counterexample : categoriesPass gapDoc = [minRecCat] := by decide

/-- Claim C5, amended: for each category heading, bold label and term, the
container or definition sibling used is the first following sibling matching
the filter: a non-matching sibling placed directly after the heading, label or
term is skipped and does not change the emitted records. -/
theorem claim_C5_first_matching : ∀ (cat b dt junk : Node) (rest : List Node) (c s : String),
    isDivList junk = false → isTag "dd" junk = false →
    recordsForCat cat (junk :: rest) = recordsForCat cat rest ∧
    recordsForB c b (junk :: rest) = recordsForB c b rest ∧
    extractFromDt c s dt (junk :: rest) = extractFromDt c s dt rest :=
  fun cat b dt junk rest c s h1 h2 =>
    ⟨recordsForCat_skip cat junk rest h1, recordsForB_skip c b junk rest h1,
     extractFromDt_skip c s dt junk rest h2⟩

/-- Claim C5, witness: inserting a paragraph element between the heading and
its list container changes nothing. -/
theorem claim_C5_witness :
    recordsForCat (Node.elem "h4" [] [.text "1. Metabolism"])
        (Node.elem "p" [] [.text "para"] :: [Node.elem "div" ["list"] [minB, minContainer]]) =
      recordsForCat (Node.elem "h4" [] [.text "1. Metabolism"])
        [Node.elem "div" ["list"] [minB, minContainer]] :=
  (claim_C5_first_matching (Node.elem "h4" [] [.text "1. Metabolism"]) minB minDl
    (Node.elem "p" [] [.text "para"]) [Node.elem "div" ["list"] [minB, minContainer]]
    "c" "s" (by decide) (by decide)).1

/-- Claim C6: extraction is a concatenation homomorphism over the sequence
of definition lists, so records appear in the order of the markup that produced
them and duplicated markup yields duplicated records, never de-duplicated; the
full run is the category-scoped pass followed by the bold-label pass. -/
theorem claim_C6_order : ∀ (dls dls2 : List Node) (c s : String) (doc : List Node),
    extract_pathways (dls ++ dls2) c s =
      extract_pathways dls c s ++ extract_pathways dls2 c s ∧
    fullRun doc = categoriesPass doc ++ additionalPass doc ∧
    (extract_pathways [minDl, minDl] c s).length = 2 ∧
    extract_pathways [minDl, minDl] c s =
      extract_pathways [minDl] c s ++ extract_pathways [minDl] c s := by
  intro dls dls2 c s doc
  exact ⟨extract_pathways_append dls dls2 c s, rfl, rfl, rfl⟩

/-- Claim C7: loading the manually curated csv raises the descriptive
failure if and only if the file is missing, the failure message is exactly the
one of the script, and a successful load returns the file contents. -/
theorem claim_C7_missing_file : ∀ (fs : String → Option String),
    ((∃ e, readSelected fs = .error e) ↔ fs selectedFilename = none) ∧
    (∀ e, readSelected fs = .error e → e = selectedErrMsg) ∧
    (∀ t, readSelected fs = .ok t → fs selectedFilename = some t) := by
  intro fs
  cases hfs : fs selectedFilename with
  | some v =>
    refine ⟨?_, ?_, ?_⟩
    · simp [readSelected, hfs]
    · intro e he
      simp [readSelected, hfs] at he
    · intro t ht
      simp only [readSelected, hfs] at ht
      cases ht
      rfl
  | none =>
    refine ⟨?_, ?_, ?_⟩
    · simp [readSelected, hfs]
    · intro e he
      simp only [readSelected, hfs] at he
      cases he
      rfl
    · intro t ht
      simp [readSelected, hfs] at ht

/-- Claim C7, witness: on an empty file system the load fails. -/
theorem claim_C7_witness : ∃ e, readSelected (fun _ => none) = Except.error e :=
  (claim_C7_missing_file (fun _ => none)).1.mpr rfl

/-- Claim C8: a row is kept by the significance filter exactly when its
p-value is at most 0.05; the derived negative log column is computed only over
kept rows; and every row drawn as a bar for a group has p-value at most 0.05,
belongs to that group and stems from an input row with the same p-value. -/
theorem claim_C8_significance :
    (∀ (df : List GoRow) (r : GoRow), r ∈ sigFilter df ↔ r ∈ df ∧ r.pvalue ≤ 1/20) ∧
    (∀ (neglog : ℚ → ℚ) (df : List GoRow) (p : GoRow × ℚ), p ∈ withNegLog neglog df →
      p.1 ∈ df ∧ p.1.pvalue ≤ 1/20 ∧ p.2 = neglog p.1.pvalue) ∧
    (∀ (df : List GoRow) (g : String) (r : GoRow), r ∈ plottedBars df g →
      r.pvalue ≤ 1/20 ∧ r.group = g ∧ ∃ r0 ∈ df, r0.pvalue = r.pvalue) := by
  refine ⟨fun df r => mem_sigFilter, ?_, ?_⟩
  · intro neglog df p hp
    unfold withNegLog at hp
    rcases List.mem_map.mp hp with ⟨r0, hr0, heq⟩
    obtain ⟨hmem, hle⟩ := mem_sigFilter.mp hr0
    rw [← heq]
    exact ⟨hmem, hle, rfl⟩
  · intro df g r hr
    unfold plottedBars nlargestByCount at hr
    have h1 := mem_sortByCountDesc.mp (List.mem_of_mem_take hr)
    rw [List.mem_filter] at h1
    obtain ⟨h3, h4⟩ := h1
    unfold preparedDf at h3
    rcases List.mem_map.mp h3 with ⟨r0, hr0, heq⟩
    obtain ⟨hmem, hle⟩ := mem_sigFilter.mp hr0
    have hpv : r.pvalue = r0.pvalue := by rw [← heq]
    refine ⟨hpv ▸ hle, ?_, r0, hmem, hpv.symm⟩
    exact eq_of_beq h4

/-- Claim C8, witness: a significant row of a two-row table is plotted and
satisfies the bound. -/
theorem claim_C8_witness :
    goRowA.pvalue ≤ 1/20 ∧ goRowA.group = "BP" ∧ ∃ r0 ∈ goDemo, r0.pvalue = goRowA.pvalue :=
  claim_C8_significance.2.2 goDemo "BP" goRowA (by
    norm_num [plottedBars, preparedDf, sigFilter, goDemo, goRowA, goRowB,
      nlargestByCount, sortByCountDesc, insertByCountDesc, pyTruncate])

theorem mkError_mem_bound {scale : ℚ} (hs : 0 < scale) {rand : ℕ → ℚ}
    (hr : ∀ i, 0 ≤ rand i ∧ rand i < 1) {d : List (Option ℚ)} {q : ℚ}
    (hq : some q ∈ mkError scale rand d) : 0 ≤ q ∧ q < scale := by
  obtain ⟨j, hj⟩ := mem_mkErrorFrom 0 d hq
  subst hj
  constructor
  · exact mul_nonneg (hr j).1 hs.le
  · have h2 := (hr j).2
    nlinarith

/-- Claim C9: the error arrays are not determined by the copy-number data:
two random streams give different error arrays for identical data, the arrays
depend on the data only through its not-na mask, and under a unit-interval
stream the SPPV errors lie in the interval from 0 up to 1000 and the SPCSV
errors in the interval from 0 up to 1000000. -/
theorem claim_C9_randomness :
    (∃ r1 r2 : ℕ → ℚ, error_SPPV_1 r1 ≠ error_SPPV_1 r2 ∧
        error_SPPV_3 r1 ≠ error_SPPV_3 r2 ∧ error_SPCSV_3 r1 ≠ error_SPCSV_3 r2) ∧
    (∀ (scale : ℚ) (rand : ℕ → ℚ) (d d' : List (Option ℚ)),
        d.map Option.isSome = d'.map Option.isSome →
        mkError scale rand d = mkError scale rand d') ∧
    (∀ rand : ℕ → ℚ, (∀ i, 0 ≤ rand i ∧ rand i < 1) →
        (∀ q : ℚ, some q ∈ error_SPPV_1 rand → 0 ≤ q ∧ q < 1000) ∧
        (∀ q : ℚ, some q ∈ error_SPPV_3 rand → 0 ≤ q ∧ q < 1000) ∧
        (∀ q : ℚ, some q ∈ error_SPCSV_3 rand → 0 ≤ q ∧ q < 1000000)) := by
  refine ⟨⟨fun _ => 0, fun _ => 1/2,
    by norm_num [error_SPPV_1, mkError, mkErrorFrom, sppv1Data],
    by norm_num [error_SPPV_3, mkError, mkErrorFrom, sppv3Data],
    by norm_num [error_SPCSV_3, mkError, mkErrorFrom, spcsv3Data]⟩, ?_, ?_⟩
  · intro scale rand d d' h
    exact mkErrorFrom_congr 0 d d' h
  · intro rand hr
    exact ⟨fun q hq => mkError_mem_bound (by norm_num) hr hq,
           fun q hq => mkError_mem_bound (by norm_num) hr hq,
           fun q hq => mkError_mem_bound (by norm_num) hr hq⟩

/-- Claim C9, witness: the bound instantiated at the constant one-half
stream and the resulting error value 500. -/
theorem claim_C9_witness : (0 : ℚ) ≤ 500 ∧ (500 : ℚ) < 1000 :=
  (claim_C9_randomness.2.2 (fun _ => 1/2) (fun _ => by norm_num)).1 500
    (by norm_num [error_SPPV_1, mkError, mkErrorFrom, sppv1Data])

/-- Claim C10: the cleaning step removes every occurrence of the two
character pattern anywhere in the id, not only a leading prefix, and then
zero-pads to width 5: an id with the pattern in a non-prefix position is also
altered. -/
theorem claim_C10_ko_removal : ∀ (a b : List Char), hasKo a = false →
    removeKo (a ++ 'k' :: 'o' :: b) = a ++ removeKo b ∧
    cleanPathwayID "ako123" = "0a123" ∧
    cleanPathwayID "ko00010" = "00010" :=
  fun a b h => ⟨removeKo_append b a h, by decide, by decide⟩

/-- Claim C10, witness: removal of a non-prefix occurrence after the ko-free
prefix of one character. -/
theorem claim_C10_witness :
    removeKo (['a'] ++ 'k' :: 'o' :: ['1']) = ['a'] ++ removeKo ['1'] :=
  (claim_C10_ko_removal ['a'] ['1'] (by decide)).1
